import Mathlib

/-!
# Juristream core logic: shallow embedding and verification

This file embeds the core logic of the Juristream law-office management
application (entity lifecycle visibility, task update logs with attachment
validation, agenda event aggregation, and the calendar settings gate) and
proves properties about it.

Conventions of the embedding:
* Timestamps (ISO date strings parsed with `new Date(...)` in the source) are
  modelled as natural numbers of milliseconds since the epoch; the ambient
  timezone offset is fixed at zero, so `Date.prototype.toDateString` bucketing
  and `setHours(0,0,0,0)` become arithmetic on whole days of `86400000` ms.
* ECMAScript `Array.prototype.sort` (stable since ES2019) with the numeric
  comparator `(a, b) => ka - kb` is modelled by a stable insertion sort on a
  natural-number key.
* React state updates become explicit state passing; rendering becomes a
  function into an explicit view datatype.
-/

namespace Juristream

/-- Task status, from `TaskStatus` with members `PENDENTE`, `FAZENDO`,
`CONCLUIDA` (Pending, InProgress, Done). -/
inductive TaskStatus where
  | pendente
  | fazendo
  | concluida
  deriving DecidableEq

/-- A task's own kind, the string union `'Prazo' | 'Tarefa'` (Deadline or
Task) used in `task.type`. -/
inductive TaskType where
  | prazo
  | tarefa
  deriving DecidableEq

/-- Appointment types referenced in `AgendaPage.tsx` (`AUDIENCIA`, `REUNIAO`,
`SUSTENTACAO_ORAL`, `PRAZO_INTERNO`) plus the remaining declared member
`outro` ("Other") from the type declaration, per the data model section of the
specification. -/
inductive AppointmentType where
  | audiencia
  | reuniao
  | sustentacaoOral
  | prazoInterno
  | outro
  deriving DecidableEq

/-- One entry of a task's update thread: `id`, `timestamp`, `text` and the
optional attachment triple. -/
structure UpdateEntry where
  id : String
  timestamp : Nat
  text : String
  attachmentName : Option String
  attachmentMimeType : Option String
  attachmentData : Option String
  deriving DecidableEq

/-- A Task record: lifecycle flags `isDeleted` / `isArchived` with their
timestamps, scheduling fields and the owned update thread. -/
structure Task where
  id : String
  title : String
  dueDate : Nat
  assignedTo : String
  type : TaskType
  status : TaskStatus
  caseId : Option String
  updates : List UpdateEntry
  isDeleted : Bool
  isArchived : Bool
  deletedAt : Option Nat
  archivedAt : Option Nat
  deriving DecidableEq

/-- An Appointment record; appointments carry no lifecycle flags. -/
structure Appointment where
  id : String
  title : String
  date : Nat
  appointmentType : AppointmentType
  deriving DecidableEq

/-- A Case record (the fields relevant to lifecycle visibility). -/
structure Case where
  id : String
  name : String
  isDeleted : Bool
  isArchived : Bool
  deletedAt : Option Nat
  archivedAt : Option Nat
  deriving DecidableEq

/-! ## Visibility partition (TasksPage / CasesPage)

`activeTasks`, `trashedTasks`, `archivedTasks` from `TasksPage` lines 23-25,
and the identical `activeCases`, `trashedCases`, `archivedCases` from
`CasesPage.tsx` lines 23-25. -/

def activeTasks (tasks : List Task) : List Task :=
  tasks.filter (fun t => !t.isDeleted && !t.isArchived)

def trashedTasks (tasks : List Task) : List Task :=
  tasks.filter (fun t => t.isDeleted)

def archivedTasks (tasks : List Task) : List Task :=
  tasks.filter (fun t => !t.isDeleted && t.isArchived)

def activeCases (cases : List Case) : List Case :=
  cases.filter (fun c => !c.isDeleted && !c.isArchived)

def trashedCases (cases : List Case) : List Case :=
  cases.filter (fun c => c.isDeleted)

def archivedCases (cases : List Case) : List Case :=
  cases.filter (fun c => !c.isDeleted && c.isArchived)

/-! ## Calendar-day arithmetic -/

/-- Milliseconds per calendar day. -/
def msPerDay : Nat := 86400000

/-- The calendar-day index of a timestamp: models
`Date.prototype.toDateString()` used as a bucketing key. -/
def dayKey (t : Nat) : Nat := t / msPerDay

/-- `const today = new Date(); today.setHours(0,0,0,0)`: the timestamp of the
start of the day containing `t`. -/
def startOfDay (t : Nat) : Nat := t / msPerDay * msPerDay

/-- Overdue test from `TasksPage` lines 120-123:
`deadline < today && task.status !== TaskStatus.CONCLUIDA`, where `today` has
its time-of-day zeroed. -/
def isOverdue (dueDate now : Nat) (status : TaskStatus) : Bool :=
  decide (dueDate < startOfDay now) && decide (status ≠ TaskStatus.concluida)

/-! ## Attachment size gate (`handleFileChange`, TasksPage lines 66-86) -/

/-- The 5 MiB attachment limit: `5 * 1024 * 1024`. -/
def maxAttachmentSize : Nat := 5 * 1024 * 1024

/-- The browser `File` the change handler receives: its metadata (`name`,
`type`, `size`) and the data-URL payload a `FileReader` would produce. -/
structure FileInput where
  name : String
  mimeType : String
  size : Nat
  dataUrl : String
  deriving DecidableEq

/-- Outcome of `handleFileChange`: the task's update thread afterwards,
whether the size error toast was shown, and whether the file payload was read
(`FileReader.readAsDataURL`). -/
structure FileChangeResult where
  updates : List UpdateEntry
  errorShown : Bool
  fileWasRead : Bool
  deriving DecidableEq

/-- `handleFileChange` (TasksPage lines 66-86): if `file.size > 5*1024*1024`
an error is shown and the handler returns before constructing a `FileReader`;
otherwise the payload is read and an update with the attachment triple is
appended to the selected task's updates. `newId` and `now` stand for the fresh
id and timestamp the store assigns in `addTaskUpdate`. -/
def handleFileChange (file : FileInput) (updates : List UpdateEntry)
    (newId : String) (now : Nat) : FileChangeResult :=
  if file.size > maxAttachmentSize then
    { updates := updates, errorShown := true, fileWasRead := false }
  else
    { updates := updates ++
        [{ id := newId, timestamp := now, text := "Anexo: " ++ file.name,
           attachmentName := some file.name,
           attachmentMimeType := some file.mimeType,
           attachmentData := some file.dataUrl }],
      errorShown := false, fileWasRead := true }

/-! ## Stable sort on a natural-number key

Models `Array.prototype.sort((a, b) => key(a) - key(b))`: the ECMAScript sort
is stable, so it is the unique reordering that is non-decreasing in the key
and keeps elements with equal keys in their original relative order. -/

/-- Insert `x` into `l` before the first element whose key is `≥ key x`
(so, after everything strictly smaller and before equal keys). -/
def insertByKey (key : α → Nat) (x : α) : List α → List α
  | [] => [x]
  | y :: ys => if key x ≤ key y then x :: y :: ys else y :: insertByKey key x ys

/-- Stable sort by `key`: insertion sort, inserting earlier elements in front
of later elements with an equal key. -/
def sortStable (key : α → Nat) : List α → List α
  | [] => []
  | x :: xs => insertByKey key x (sortStable key xs)

/-- The displayed update thread of the task detail panel (TasksPage lines
166-173): `selectedTask.updates.sort((a,b) => ta - tb)` on the update
timestamps. -/
def orderedUpdates (updates : List UpdateEntry) : List UpdateEntry :=
  sortStable (fun u => u.timestamp) updates

/-! ## Event aggregation (AgendaPage.tsx) -/

/-- The `type` field of a `UnifiedEvent`:
`AppointmentType | 'Prazo' | 'Tarefa'`. -/
inductive EventType where
  | appt (t : AppointmentType)
  | prazo
  | tarefa
  deriving DecidableEq

/-- A task's own `type` passed through unchanged into the event union. -/
def TaskType.toEventType : TaskType → EventType
  | .prazo => .prazo
  | .tarefa => .tarefa

/-- The entity a `UnifiedEvent` originated from (`Appointment | Task`). -/
inductive EventOrigin where
  | fromAppointment (a : Appointment)
  | fromTask (t : Task)
  deriving DecidableEq

/-- The derived `UnifiedEvent` record of `AgendaPage.tsx` lines 11-17. -/
structure UnifiedEvent where
  id : String
  title : String
  date : Nat
  type : EventType
  original : EventOrigin
  deriving DecidableEq

/-- The event an appointment maps to (AgendaPage lines 31-37). -/
def apptToEvent (a : Appointment) : UnifiedEvent :=
  { id := a.id, title := a.title, date := a.date,
    type := .appt a.appointmentType, original := .fromAppointment a }

/-- The event an eligible task maps to (AgendaPage lines 40-46): `date` is the
task's `dueDate` and `type` is the task's own `type`. -/
def taskToEvent (t : Task) : UnifiedEvent :=
  { id := t.id, title := t.title, date := t.dueDate,
    type := t.type.toEventType, original := .fromTask t }

/-- `unifiedEvents` (AgendaPage lines 30-48): all appointments, followed by
the tasks with `status !== TaskStatus.CONCLUIDA`. -/
def unifiedEvents (appointments : List Appointment) (tasks : List Task) :
    List UnifiedEvent :=
  appointments.map apptToEvent ++
    (tasks.filter (fun t => t.status ≠ TaskStatus.concluida)).map taskToEvent

/-- One step of the `reduce` in `eventsByDate` (AgendaPage lines 50-59): push
the event into the bucket of its day and re-sort that bucket by time with the
stable `Array.prototype.sort`. -/
def pushEvent (acc : Nat → List UnifiedEvent) (e : UnifiedEvent) :
    Nat → List UnifiedEvent := fun d =>
  if dayKey e.date = d then sortStable (fun ev => ev.date) (acc d ++ [e])
  else acc d

/-- `eventsByDate` (AgendaPage lines 50-59): the per-day index of the unified
events, keyed by the calendar day of the event date, each bucket sorted
ascending by full timestamp. -/
def eventsByDate (evs : List UnifiedEvent) : Nat → List UnifiedEvent :=
  evs.foldl pushEvent (fun _ => [])

/-- `getEventColor` (AgendaPage lines 114-124): total classification of an
event type into a display color category; the final catch-all clause covers
every type not matched by a labelled case. -/
def getEventColor : EventType → String
  | .appt .audiencia => "bg-red-100 border-red-400 text-red-800"
  | .prazo => "bg-yellow-100 border-yellow-400 text-yellow-800"
  | .appt .reuniao => "bg-blue-100 border-blue-400 text-blue-800"
  | .appt .sustentacaoOral => "bg-purple-100 border-purple-400 text-purple-800"
  | .appt .prazoInterno => "bg-orange-100 border-orange-400 text-orange-800"
  | .tarefa => "bg-teal-100 border-teal-400 text-teal-800"
  | .appt .outro => "bg-slate-100 border-slate-400 text-slate-800"

/-- Every value of the event type union. -/
def allEventTypes : List EventType :=
  [.appt .audiencia, .appt .reuniao, .appt .sustentacaoOral,
   .appt .prazoInterno, .appt .outro, .prazo, .tarefa]

/-- The palette of color categories `getEventColor` can produce. -/
def colorPalette : List String :=
  ["bg-red-100 border-red-400 text-red-800",
   "bg-yellow-100 border-yellow-400 text-yellow-800",
   "bg-blue-100 border-blue-400 text-blue-800",
   "bg-purple-100 border-purple-400 text-purple-800",
   "bg-orange-100 border-orange-400 text-orange-800",
   "bg-teal-100 border-teal-400 text-teal-800",
   "bg-slate-100 border-slate-400 text-slate-800"]

/-! ## Settings gate (AgendaPage.tsx) -/

/-- The settings record; the field relevant to the calendar gate. Partial
`updateSettings` patches merge by field, so setting this field leaves the rest
of the record unchanged. -/
structure Settings where
  googleCalendarConnected : Bool
  deriving DecidableEq

/-- `handleConnectGoogleCalendar` (AgendaPage lines 94-107): the simulated
connection sets the flag to `true` on success and `false` on failure; the
random draw is passed in as `success`. -/
def handleConnectGoogleCalendar (success : Bool) (s : Settings) : Settings :=
  if success then { s with googleCalendarConnected := true }
  else { s with googleCalendarConnected := false }

/-- `handleDisconnectGoogleCalendar` (AgendaPage lines 109-112):
`updateSettings({ googleCalendarConnected: false })`. -/
def handleDisconnectGoogleCalendar (s : Settings) : Settings :=
  { s with googleCalendarConnected := false }

/-- What the agenda page renders: either the connect prompt (which carries no
event data at all) or the calendar grid fed by the per-day event index. -/
inductive AgendaView where
  | connectPrompt
  | calendar (eventIndex : Nat → List UnifiedEvent)

/-- The event data a rendered view exposes: none for the connect prompt. -/
def AgendaView.exposedEvents : AgendaView → Option (Nat → List UnifiedEvent)
  | .connectPrompt => none
  | .calendar idx => some idx

/-- The gate check of `AgendaPage` (lines 126-143 and the main return): when
`!settings.googleCalendarConnected` the component returns the connect prompt
before any event markup; otherwise it renders the calendar over
`eventsByDate`. -/
def renderAgenda (s : Settings) (appointments : List Appointment)
    (tasks : List Task) : AgendaView :=
  if !s.googleCalendarConnected then .connectPrompt
  else .calendar (eventsByDate (unifiedEvents appointments tasks))

/-! ## Lifecycle transitions -/

/-- Failure kind of a lifecycle transition attempted in the wrong visibility
state. -/
inductive LifecycleError where
  | preconditionViolation
  deriving DecidableEq

/-- Modelled from the spec: `softDeleteTask` lives in the `useAppData` hook,
which is not among the provided source files. Per the specification,
`softDelete(id)` requires `isDeleted == false`, sets `isDeleted = true` and
stamps `deletedAt = now`; it does not touch `isArchived`. -/
def softDeleteTask (now : Nat) (t : Task) : Except LifecycleError Task :=
  if t.isDeleted then .error .preconditionViolation
  else .ok { t with isDeleted := true, deletedAt := some now }

/-- Modelled from the spec: `restoreTask` lives in the `useAppData` hook,
which is not among the provided source files. Per the specification,
`restore(id)` requires `isDeleted == true`, sets `isDeleted = false` and
clears `deletedAt`; the prior `isArchived` value is left untouched. -/
def restoreTask (t : Task) : Except LifecycleError Task :=
  if t.isDeleted then .ok { t with isDeleted := false, deletedAt := none }
  else .error .preconditionViolation

/-- Modelled from the spec: `toggleTaskArchive` lives in the `useAppData`
hook, which is not among the provided source files. Per the specification,
`toggleArchive(id)` requires `isDeleted == false` and flips `isArchived`,
stamping or clearing `archivedAt` accordingly. -/
def toggleTaskArchive (now : Nat) (t : Task) : Except LifecycleError Task :=
  if t.isDeleted then .error .preconditionViolation
  else .ok { t with isArchived := !t.isArchived,
                    archivedAt := if t.isArchived then none else some now }

/-! ## Concrete instances used to instantiate theorems -/

/-- A concrete active task used to instantiate partition statements. -/
def sampleTask : Task :=
  { id := "t1", title := "Revisar contrato", dueDate := 0, assignedTo := "Ana",
    type := .tarefa, status := .pendente, caseId := none, updates := [],
    isDeleted := false, isArchived := false, deletedAt := none,
    archivedAt := none }

/-- A concrete active case used to instantiate partition statements. -/
def sampleCase : Case :=
  { id := "c1", name := "Processo 123", isDeleted := false, isArchived := false,
    deletedAt := none, archivedAt := none }

/-- `sampleTask` after a soft delete stamped at time 5. -/
def sampleTrashedTask : Task :=
  { sampleTask with isDeleted := true, deletedAt := some 5 }

/-- A concrete appointment on 2024-03-10T09:00 (timestamp in ms, day
`1710061200000 / 86400000 = 19792`). -/
def apptMar10 : Appointment :=
  { id := "a1", title := "Audiencia inicial", date := 1710061200000,
    appointmentType := .audiencia }

/-- A concrete Pending task due 2024-03-10T14:00 (timestamp in ms, same
calendar day `19792`). -/
def taskMar10 : Task :=
  { id := "t2", title := "Protocolar peticao", dueDate := 1710079200000,
    assignedTo := "Ana", type := .prazo, status := .pendente, caseId := none,
    updates := [], isDeleted := false, isArchived := false, deletedAt := none,
    archivedAt := none }

/-- A concrete trashed, non-Done task. -/
def trashedPendingTask : Task :=
  { id := "t3", title := "Tarefa na lixeira", dueDate := 1710079200000,
    assignedTo := "Ana", type := .tarefa, status := .pendente, caseId := none,
    updates := [], isDeleted := true, isArchived := false, deletedAt := some 5,
    archivedAt := none }

/-! ## Lemmas about the stable sort -/

theorem mem_insertByKey {α : Type} (key : α → Nat) (x a : α) (l : List α) :
    a ∈ insertByKey key x l ↔ a = x ∨ a ∈ l := by
  induction l with
  | nil => simp [insertByKey]
  | cons y ys ih =>
    by_cases h : key x ≤ key y
    · simp [insertByKey, h]
    · simp only [insertByKey, if_neg h, List.mem_cons, ih]
      tauto

theorem pairwise_insertByKey {α : Type} (key : α → Nat) (x : α) {l : List α}
    (h : l.Pairwise (fun a b => key a ≤ key b)) :
    (insertByKey key x l).Pairwise (fun a b => key a ≤ key b) := by
  induction l with
  | nil => simp [insertByKey]
  | cons y ys ih =>
    rcases List.pairwise_cons.mp h with ⟨hy, hys⟩
    by_cases hxy : key x ≤ key y
    · rw [insertByKey, if_pos hxy]
      refine List.pairwise_cons.mpr ⟨?_, h⟩
      intro b hb
      rcases List.mem_cons.mp hb with rfl | hb
      · exact hxy
      · exact le_trans hxy (hy b hb)
    · rw [insertByKey, if_neg hxy]
      refine List.pairwise_cons.mpr ⟨?_, ih hys⟩
      intro b hb
      rcases (mem_insertByKey key x b ys).mp hb with rfl | hb
      · exact le_of_not_le hxy
      · exact hy b hb

theorem pairwise_sortStable {α : Type} (key : α → Nat) (l : List α) :
    (sortStable key l).Pairwise (fun a b => key a ≤ key b) := by
  induction l with
  | nil => simp [sortStable]
  | cons x xs ih => exact pairwise_insertByKey key x ih

theorem filter_insertByKey {α : Type} (key : α → Nat) (τ : Nat) (x : α)
    (l : List α) :
    (insertByKey key x l).filter (fun e => key e = τ) =
      if key x = τ then x :: l.filter (fun e => key e = τ)
      else l.filter (fun e => key e = τ) := by
  induction l with
  | nil => by_cases h : key x = τ <;> simp [insertByKey, h]
  | cons y ys ih =>
    by_cases hxy : key x ≤ key y
    · rw [insertByKey, if_pos hxy]
      by_cases h : key x = τ <;> by_cases hy : key y = τ <;>
        simp [List.filter_cons, h, hy]
    · rw [insertByKey, if_neg hxy]
      have hyx : key y < key x := Nat.lt_of_not_le hxy
      by_cases h : key x = τ
      · have hy : ¬ key y = τ := by omega
        simp [List.filter_cons, ih, h, hy]
      · by_cases hy : key y = τ <;> simp [List.filter_cons, ih, h, hy]

theorem filter_sortStable {α : Type} (key : α → Nat) (τ : Nat) (l : List α) :
    (sortStable key l).filter (fun e => key e = τ) =
      l.filter (fun e => key e = τ) := by
  induction l with
  | nil => rfl
  | cons x xs ih =>
    by_cases h : key x = τ <;>
      simp [sortStable, filter_insertByKey, h, List.filter_cons, ih]

/-- C2: the displayed update sequence is sorted non-decreasing by timestamp,
and updates with equal timestamps keep their original append order (the
subsequence of updates carrying any fixed timestamp is unchanged), for any
number of appended updates. -/
theorem C2_ordered_updates_sorted_stable (updates : List UpdateEntry) :
    (orderedUpdates updates).Pairwise (fun a b => a.timestamp ≤ b.timestamp) ∧
    ∀ τ : Nat, (orderedUpdates updates).filter (fun u => u.timestamp = τ) =
      updates.filter (fun u => u.timestamp = τ) :=
  ⟨pairwise_sortStable (fun u => u.timestamp) updates,
   fun τ => filter_sortStable (fun u => u.timestamp) τ updates⟩

/-- C3: an attachment of exactly 5 MiB is accepted (an update carrying the
attachment triple is appended, no error), while 5 MiB + 1 byte is rejected
with the size error, the update sequence is left unchanged, and the file
payload is never read. -/
theorem C3_attachment_size_gate (file : FileInput) (updates : List UpdateEntry)
    (newId : String) (now : Nat) :
    (handleFileChange { file with size := maxAttachmentSize } updates newId now =
      { updates := updates ++
          [{ id := newId, timestamp := now, text := "Anexo: " ++ file.name,
             attachmentName := some file.name,
             attachmentMimeType := some file.mimeType,
             attachmentData := some file.dataUrl }],
        errorShown := false, fileWasRead := true }) ∧
    (handleFileChange { file with size := maxAttachmentSize + 1 } updates newId now =
      { updates := updates, errorShown := true, fileWasRead := false }) := by
  constructor <;> simp [handleFileChange, maxAttachmentSize]

/-- C5: a task is overdue exactly when the calendar day of its due date is
strictly before the current calendar day and its status is not Done; in
particular a Done task is never overdue. The day-level characterization shows
the comparison depends only on the calendar-day portions of both dates. -/
theorem C5_overdue_iff_day_before (dueDate now : Nat) (status : TaskStatus) :
    (isOverdue dueDate now status = true ↔
      dayKey dueDate < dayKey now ∧ status ≠ TaskStatus.concluida) ∧
    isOverdue dueDate now TaskStatus.concluida = false := by
  constructor
  · simp only [isOverdue, startOfDay, dayKey, msPerDay, Bool.and_eq_true,
      decide_eq_true_eq]
    constructor
    · rintro ⟨h1, h2⟩
      exact ⟨by omega, h2⟩
    · rintro ⟨h1, h2⟩
      exact ⟨by omega, h2⟩
  · simp [isOverdue]

/-- C6: every task in the collection appears in exactly one of the active,
archived and trashed task lists, and likewise for cases. -/
theorem C6_visibility_partition (tasks : List Task) (t : Task)
    (cases : List Case) (c : Case) (ht : t ∈ tasks) (hc : c ∈ cases) :
    ((t ∈ activeTasks tasks ∧ t ∉ archivedTasks tasks ∧ t ∉ trashedTasks tasks) ∨
     (t ∉ activeTasks tasks ∧ t ∈ archivedTasks tasks ∧ t ∉ trashedTasks tasks) ∨
     (t ∉ activeTasks tasks ∧ t ∉ archivedTasks tasks ∧ t ∈ trashedTasks tasks)) ∧
    ((c ∈ activeCases cases ∧ c ∉ archivedCases cases ∧ c ∉ trashedCases cases) ∨
     (c ∉ activeCases cases ∧ c ∈ archivedCases cases ∧ c ∉ trashedCases cases) ∨
     (c ∉ activeCases cases ∧ c ∉ archivedCases cases ∧ c ∈ trashedCases cases)) := by
  constructor
  · simp only [activeTasks, archivedTasks, trashedTasks, List.mem_filter]
    cases hd : t.isDeleted <;> cases ha : t.isArchived <;> simp [ht, hd, ha]
  · simp only [activeCases, archivedCases, trashedCases, List.mem_filter]
    cases hd : c.isDeleted <;> cases ha : c.isArchived <;> simp [hc, hd, ha]

/-- Witness for C6 at a concrete one-task, one-case collection. -/
theorem C6_visibility_partition_witness :
    (sampleTask ∈ [sampleTask] ∧ sampleCase ∈ [sampleCase]) ∧
    (((sampleTask ∈ activeTasks [sampleTask] ∧
       sampleTask ∉ archivedTasks [sampleTask] ∧
       sampleTask ∉ trashedTasks [sampleTask]) ∨
      (sampleTask ∉ activeTasks [sampleTask] ∧
       sampleTask ∈ archivedTasks [sampleTask] ∧
       sampleTask ∉ trashedTasks [sampleTask]) ∨
      (sampleTask ∉ activeTasks [sampleTask] ∧
       sampleTask ∉ archivedTasks [sampleTask] ∧
       sampleTask ∈ trashedTasks [sampleTask])) ∧
     ((sampleCase ∈ activeCases [sampleCase] ∧
       sampleCase ∉ archivedCases [sampleCase] ∧
       sampleCase ∉ trashedCases [sampleCase]) ∨
      (sampleCase ∉ activeCases [sampleCase] ∧
       sampleCase ∈ archivedCases [sampleCase] ∧
       sampleCase ∉ trashedCases [sampleCase]) ∨
      (sampleCase ∉ activeCases [sampleCase] ∧
       sampleCase ∉ archivedCases [sampleCase] ∧
       sampleCase ∈ trashedCases [sampleCase]))) :=
  ⟨⟨by decide, by decide⟩,
   C6_visibility_partition [sampleTask] sampleTask [sampleCase] sampleCase
     (by decide) (by decide)⟩

/-! ## Lemmas about the per-day event index -/

theorem mem_sortStable {α : Type} (key : α → Nat) (a : α) (l : List α) :
    a ∈ sortStable key l ↔ a ∈ l := by
  induction l with
  | nil => simp [sortStable]
  | cons x xs ih => simp [sortStable, mem_insertByKey, ih]

theorem mem_pushEvent (acc : Nat → List UnifiedEvent) (e z : UnifiedEvent)
    (d : Nat) :
    z ∈ pushEvent acc e d ↔ z ∈ acc d ∨ (z = e ∧ dayKey e.date = d) := by
  unfold pushEvent
  by_cases h : dayKey e.date = d
  · rw [if_pos h, mem_sortStable]
    simp [h]
  · rw [if_neg h]
    simp [h]

theorem mem_eventsByDate_go (evs : List UnifiedEvent) :
    ∀ (acc : Nat → List UnifiedEvent) (d : Nat) (z : UnifiedEvent),
      z ∈ (evs.foldl pushEvent acc) d ↔
        z ∈ acc d ∨ (z ∈ evs ∧ dayKey z.date = d) := by
  induction evs with
  | nil => intro acc d z; simp
  | cons e es ih =>
    intro acc d z
    rw [List.foldl_cons, ih]
    rw [mem_pushEvent]
    constructor
    · rintro ((h | ⟨rfl, hd⟩) | ⟨hm, hd⟩)
      · exact Or.inl h
      · exact Or.inr ⟨List.mem_cons_self _ _, hd⟩
      · exact Or.inr ⟨List.mem_cons_of_mem _ hm, hd⟩
    · rintro (h | ⟨hm, hd⟩)
      · exact Or.inl (Or.inl h)
      · rcases List.mem_cons.mp hm with rfl | hm
        · exact Or.inl (Or.inr ⟨rfl, hd⟩)
        · exact Or.inr ⟨hm, hd⟩

theorem mem_eventsByDate (evs : List UnifiedEvent) (d : Nat)
    (z : UnifiedEvent) :
    z ∈ eventsByDate evs d ↔ z ∈ evs ∧ dayKey z.date = d := by
  rw [eventsByDate, mem_eventsByDate_go]
  simp

theorem filter_pushEvent (acc : Nat → List UnifiedEvent) (e : UnifiedEvent)
    (d τ : Nat) :
    (pushEvent acc e d).filter (fun ev => ev.date = τ) =
      (acc d).filter (fun ev => ev.date = τ) ++
        if dayKey e.date = d ∧ e.date = τ then [e] else [] := by
  unfold pushEvent
  by_cases h : dayKey e.date = d
  · rw [if_pos h]
    have hs := filter_sortStable (fun ev => ev.date) τ (acc d ++ [e])
    simp only at hs
    rw [hs, List.filter_append]
    congr 1
    by_cases he : e.date = τ
    · rw [if_pos ⟨h, he⟩]
      simp [he]
    · rw [if_neg (by tauto)]
      simp [he]
  · rw [if_neg h, if_neg (by tauto)]
    simp

theorem filter_eventsByDate_go (evs : List UnifiedEvent) :
    ∀ (acc : Nat → List UnifiedEvent) (d τ : Nat),
      ((evs.foldl pushEvent acc) d).filter (fun ev => ev.date = τ) =
        (acc d).filter (fun ev => ev.date = τ) ++
          (evs.filter (fun ev => dayKey ev.date = d)).filter
            (fun ev => ev.date = τ) := by
  induction evs with
  | nil => intro acc d τ; simp
  | cons e es ih =>
    intro acc d τ
    rw [List.foldl_cons, ih, filter_pushEvent, List.append_assoc]
    congr 1
    by_cases h1 : dayKey e.date = d
    · rw [List.filter_cons_of_pos (by simpa using h1)]
      by_cases h2 : e.date = τ
      · rw [if_pos ⟨h1, h2⟩, List.filter_cons_of_pos (by simpa using h2)]
        rfl
      · rw [if_neg (by tauto), List.filter_cons_of_neg (by simpa using h2)]
        rfl
    · rw [if_neg (by tauto), List.filter_cons_of_neg (by simpa using h1)]
      rfl

theorem filter_eventsByDate (evs : List UnifiedEvent) (d τ : Nat) :
    (eventsByDate evs d).filter (fun ev => ev.date = τ) =
      (evs.filter (fun ev => dayKey ev.date = d)).filter
        (fun ev => ev.date = τ) := by
  rw [eventsByDate, filter_eventsByDate_go]
  simp

theorem pairwise_eventsByDate_go (evs : List UnifiedEvent) :
    ∀ (acc : Nat → List UnifiedEvent),
      (∀ d, (acc d).Pairwise (fun a b => a.date ≤ b.date)) →
      ∀ d, ((evs.foldl pushEvent acc) d).Pairwise
        (fun a b => a.date ≤ b.date) := by
  induction evs with
  | nil => intro acc h d; exact h d
  | cons e es ih =>
    intro acc h d
    rw [List.foldl_cons]
    refine ih _ ?_ d
    intro d'
    unfold pushEvent
    by_cases hd : dayKey e.date = d'
    · rw [if_pos hd]
      exact pairwise_sortStable (fun ev : UnifiedEvent => ev.date) _
    · rw [if_neg hd]
      exact h d'

theorem pairwise_eventsByDate (evs : List UnifiedEvent) (d : Nat) :
    (eventsByDate evs d).Pairwise (fun a b => a.date ≤ b.date) :=
  pairwise_eventsByDate_go evs _ (fun _ => List.Pairwise.nil) d

/-! ## Claims about the event aggregation -/

/-- C1 counterexample: a trashed (`isDeleted = true`) task whose status is not
Done does yield a `UnifiedEvent` in the unified list, contradicting the claim
that no trashed task ever yields one. -/
theorem C1_counterexample_trashed_task_event :
    trashedPendingTask.isDeleted = true ∧
    trashedPendingTask.status ≠ TaskStatus.concluida ∧
    taskToEvent trashedPendingTask ∈ unifiedEvents [] [trashedPendingTask] := by
  refine ⟨rfl, by decide, ?_⟩
  simp [unifiedEvents, trashedPendingTask]

/-- C1 (amended): the unified event list contains an event for a task iff the
task's `status` is not Done; the visibility flags are not consulted, so
trashed or archived non-Done tasks also yield events. Appointment events are
included unconditionally. -/
theorem C1_unified_events_membership (appointments : List Appointment)
    (tasks : List Task) (e : UnifiedEvent) :
    e ∈ unifiedEvents appointments tasks ↔
      (∃ a ∈ appointments, apptToEvent a = e) ∨
      (∃ t ∈ tasks, t.status ≠ TaskStatus.concluida ∧ taskToEvent t = e) := by
  simp [unifiedEvents, List.mem_append, List.mem_map, List.mem_filter,
    and_assoc]

/-- C4: the per-day index groups an event under the calendar-day portion of
its date (membership characterization), each bucket is ordered ascending by
the full timestamp, and for the concrete mix of one appointment at
2024-03-10T09:00 and one Pending task due 2024-03-10T14:00 (same calendar day
19792, different times) the 2024-03-10 bucket holds exactly those two events
with the appointment first. -/
theorem C4_events_by_date_buckets :
    (∀ (evs : List UnifiedEvent) (d : Nat) (e : UnifiedEvent),
      e ∈ eventsByDate evs d ↔ e ∈ evs ∧ dayKey e.date = d) ∧
    (∀ (evs : List UnifiedEvent) (d : Nat),
      (eventsByDate evs d).Pairwise (fun a b => a.date ≤ b.date)) ∧
    dayKey apptMar10.date = 19792 ∧ dayKey taskMar10.dueDate = 19792 ∧
    apptMar10.date ≠ taskMar10.dueDate ∧
    eventsByDate (unifiedEvents [apptMar10] [taskMar10]) 19792 =
      [apptToEvent apptMar10, taskToEvent taskMar10] := by
  refine ⟨mem_eventsByDate, pairwise_eventsByDate, by decide, by decide,
    by decide, ?_⟩
  decide

/-- C10: within any per-day bucket, the events carrying one fixed timestamp
are exactly the appointment-derived events with that timestamp followed by the
task-derived events with that timestamp: the bucket sort is stable and the
unified list puts all appointments before all tasks, so an appointment-derived
event always precedes a task-derived event with an equal timestamp, and the
tie order across the two entity kinds is deterministic. -/
theorem C10_bucket_tie_order (appointments : List Appointment)
    (tasks : List Task) (d τ : Nat) :
    (eventsByDate (unifiedEvents appointments tasks) d).filter
        (fun ev => ev.date = τ) =
      ((appointments.map apptToEvent).filter
          (fun ev : UnifiedEvent => dayKey ev.date = d)).filter
        (fun ev : UnifiedEvent => ev.date = τ) ++
      (((tasks.filter (fun t => t.status ≠ TaskStatus.concluida)).map
          taskToEvent).filter
          (fun ev : UnifiedEvent => dayKey ev.date = d)).filter
        (fun ev : UnifiedEvent => ev.date = τ) := by
  rw [filter_eventsByDate, unifiedEvents, List.filter_append,
    List.filter_append]

/-! ## Lifecycle and gate claims -/

/-- C7: a successful soft delete never modifies the `isArchived` flag, and
the sequence archive, then soft delete, then restore, applied to an active
unarchived task, succeeds and yields a task that is Archived
(`isArchived = true`, `isDeleted = false`), not Active. -/
theorem C7_restore_preserves_archive (nowA nowD : Nat) (t t2 u : Task)
    (hDel : softDeleteTask nowD t2 = Except.ok u)
    (hActive : t.isDeleted = false) (hNotArch : t.isArchived = false) :
    u.isArchived = t2.isArchived ∧
    ∃ v, ((toggleTaskArchive nowA t).bind (softDeleteTask nowD)).bind
        restoreTask = Except.ok v ∧
      v.isDeleted = false ∧ v.isArchived = true := by
  constructor
  · rw [softDeleteTask] at hDel
    by_cases h2 : t2.isDeleted
    · rw [if_pos h2] at hDel
      exact absurd hDel (by simp)
    · rw [if_neg h2] at hDel
      cases hDel
      rfl
  · have hv : ((toggleTaskArchive nowA t).bind (softDeleteTask nowD)).bind
        restoreTask =
          Except.ok { t with
            isArchived := true, archivedAt := some nowA,
            isDeleted := false, deletedAt := none } := by
      simp [toggleTaskArchive, softDeleteTask, restoreTask, Except.bind,
        hActive, hNotArch]
    exact ⟨_, hv, rfl, rfl⟩

/-- Witness for C7 at a concrete active task. -/
theorem C7_restore_preserves_archive_witness :
    (softDeleteTask 5 sampleTask = Except.ok sampleTrashedTask ∧
     sampleTask.isDeleted = false ∧ sampleTask.isArchived = false) ∧
    (sampleTrashedTask.isArchived = sampleTask.isArchived ∧
     ∃ v, ((toggleTaskArchive 3 sampleTask).bind (softDeleteTask 5)).bind
         restoreTask = Except.ok v ∧
       v.isDeleted = false ∧ v.isArchived = true) :=
  ⟨⟨rfl, rfl, rfl⟩,
   C7_restore_preserves_archive 3 5 sampleTask sampleTask sampleTrashedTask
     rfl rfl rfl⟩

/-- C8: `disconnect()` after `connect()` always leaves the gate Disconnected
(whatever the simulated connect outcome was), the agenda then renders the
connect prompt instead of the calendar, and a rendered view under a
Disconnected gate exposes no event data at all. -/
theorem C8_disconnect_gates_agenda (success : Bool) (s : Settings)
    (appointments : List Appointment) (tasks : List Task) :
    (handleDisconnectGoogleCalendar
        (handleConnectGoogleCalendar success s)).googleCalendarConnected =
      false ∧
    renderAgenda (handleDisconnectGoogleCalendar
        (handleConnectGoogleCalendar success s)) appointments tasks =
      AgendaView.connectPrompt ∧
    (renderAgenda { googleCalendarConnected := false } appointments
        tasks).exposedEvents = none :=
  ⟨rfl, rfl, rfl⟩

/-- C9: the event-color classification is total, every type value is covered
by the enumeration, Hearing (`AUDIENCIA`) and `'Prazo'` each map to a color
category no other type value receives (their counts over all type values are
one), and the unrecognized value (`outro`, the declared appointment type with
no labelled case) gets the neutral slate default. -/
theorem C9_event_color_total :
    (∀ t : EventType, t ∈ allEventTypes) ∧
    (∀ t : EventType, getEventColor t ∈ colorPalette) ∧
    (allEventTypes.map getEventColor).count
        (getEventColor (.appt .audiencia)) = 1 ∧
    (allEventTypes.map getEventColor).count (getEventColor .prazo) = 1 ∧
    getEventColor (.appt .audiencia) = "bg-red-100 border-red-400 text-red-800" ∧
    getEventColor .prazo = "bg-yellow-100 border-yellow-400 text-yellow-800" ∧
    getEventColor (.appt .outro) =
      "bg-slate-100 border-slate-400 text-slate-800" := by
  refine ⟨?_, ?_, by decide, by decide, rfl, rfl, rfl⟩
  · intro t
    cases t with
    | appt a => cases a <;> decide
    | prazo => decide
    | tarefa => decide
  · intro t
    cases t with
    | appt a => cases a <;> decide
    | prazo => decide
    | tarefa => decide

end Juristream
